import Mathlib

/-!
Verification of the skill-extraction and aggregation pipeline of the
LinkedIn job-market dashboard (`src/app.py`).

Texts are modelled as `List Char`; Python's `str.lower()` becomes
`List.map Char.toLower`, and Python's substring test `needle in hay`
becomes `hasSub`.  Both pipeline instances of the app (the default-file
branch, lines 33-74, and the uploaded-file branch, lines 100-181) are
embedded, together with the `Counter.most_common` / `value_counts`
counting utilities and the seniority classifier.
-/

/-- Texts, keywords and column values: Python strings as character lists. -/
abbrev Str := List Char

/-- Python `s.lower()` (the app only ever feeds it ASCII data). -/
def lowerStr (s : Str) : Str := s.map Char.toLower

/-- `leadsWith n h = true` iff `n` is an initial segment of `h`. -/
def leadsWith : Str → Str → Bool
  | [], _ => true
  | _ :: _, [] => false
  | a :: as, b :: bs => a == b && leadsWith as bs

/-- Python's containment test `needle in hay` on strings:
`hasSub n h = true` iff `n` occurs contiguously inside `h`. -/
def hasSub (needle : Str) : Str → Bool
  | [] => leadsWith needle []
  | c :: t => leadsWith needle (c :: t) || hasSub needle t

theorem leadsWith_iff (n : Str) : ∀ h : Str, leadsWith n h = true ↔ ∃ r, h = n ++ r := by
  induction n with
  | nil =>
    intro h
    simp [leadsWith]
  | cons a as ih =>
    intro h
    cases h with
    | nil =>
      simp [leadsWith]
    | cons b bs =>
      simp only [leadsWith, Bool.and_eq_true, beq_iff_eq, ih bs, List.cons_append,
        List.cons.injEq]
      constructor
      · rintro ⟨hab, r, hr⟩
        exact ⟨r, hab.symm, hr⟩
      · rintro ⟨r, hab, hr⟩
        exact ⟨hab.symm, r, hr⟩

theorem hasSub_iff (n : Str) : ∀ h : Str, hasSub n h = true ↔ ∃ p q, h = p ++ (n ++ q) := by
  intro h
  induction h with
  | nil =>
    simp only [hasSub, leadsWith_iff]
    constructor
    · rintro ⟨r, hr⟩
      exact ⟨[], r, hr⟩
    · rintro ⟨p, q, hpq⟩
      rcases List.append_eq_nil.mp hpq.symm with ⟨-, h2⟩
      exact ⟨q, h2.symm⟩
  | cons c t ih =>
    simp only [hasSub, Bool.or_eq_true, leadsWith_iff, ih]
    constructor
    · rintro (⟨r, hr⟩ | ⟨p, q, hpq⟩)
      · exact ⟨[], r, by simpa using hr⟩
      · exact ⟨c :: p, q, by simp [hpq]⟩
    · rintro ⟨p, q, hpq⟩
      cases p with
      | nil => exact Or.inl ⟨q, by simpa using hpq⟩
      | cons x xs =>
        simp only [List.cons_append] at hpq
        injection hpq with h1 h2
        exact Or.inr ⟨xs, q, h2⟩

theorem hasSub_singleton (c : Char) : ∀ h : Str, hasSub [c] h = true ↔ c ∈ h := by
  intro h
  induction h with
  | nil => simp [hasSub, leadsWith]
  | cons b bs ih =>
    simp [hasSub, leadsWith, ih, List.mem_cons]

/-- The keyword vocabulary of the default-dataset pipeline (`app.py` line 33). -/
def skills : List Str :=
  (["Python", "SQL", "R", "Excel", "Power BI", "Tableau", "AWS", "Azure", "Spark",
    "TensorFlow", "scikit-learn"]).map String.toList

/-- The keyword vocabulary of the uploaded-file pipeline (`app.py` line 100). -/
def skills2 : List Str :=
  (["python", "sql", "excel", "power bi", "tableau", "r", "aws", "machine learning",
    "deep learning", "pandas", "numpy"]).map String.toList

/-- `extract_skills` of `app.py` lines 35-37, with the vocabulary made an explicit
parameter: lowercase the text once, then keep every vocabulary entry whose
lowercased form occurs in it. -/
def extract_skills_with (vocab : List Str) (text : Str) : List Str :=
  let t := lowerStr text
  vocab.filter (fun sk => hasSub (lowerStr sk) t)

/-- `extract_skills` of the default-dataset pipeline (`app.py` lines 35-37). -/
def extract_skills (text : Str) : List Str := extract_skills_with skills text

/-- `extract_skills` of `app.py` lines 102-104, vocabulary explicit: the
vocabulary entry itself (not lowercased) is tested against the lowercased text. -/
def extract_skills2_with (vocab : List Str) (text : Str) : List Str :=
  let t := lowerStr text
  vocab.filter (fun sk => hasSub sk t)

/-- `extract_skills` of the uploaded-file pipeline (`app.py` lines 102-104). -/
def extract_skills2 (text : Str) : List Str := extract_skills2_with skills2 text

/-- `get_seniority` of `app.py` lines 134-145: ordered substring checks on the
lowercased title, first match wins, default `"Mid"`. -/
def get_seniority (title : Str) : String :=
  let t := lowerStr title
  if hasSub "intern".toList t then "Intern"
  else if hasSub "junior".toList t then "Junior"
  else if hasSub "senior".toList t then "Senior"
  else if hasSub "lead".toList t || hasSub "principal".toList t then "Lead"
  else "Mid"

/-- The distinct values of a list in first-occurrence order: the iteration
order of the keys of a Python `Counter` (or `dict`) built from the list. -/
def firstOccs {α : Type} [DecidableEq α] : List α → List α
  | [] => []
  | a :: t => a :: (firstOccs t).filter (fun b => decide (b ≠ a))

/-- The number of occurrences of `a` in `l` (`l.count(a)` in Python). -/
def occCount {α : Type} [DecidableEq α] (a : α) (l : List α) : Nat := l.count a

/-- `Counter(l).items()`: each distinct value of `l` (in first-occurrence
order) paired with its number of occurrences in `l`. -/
def counterItems {α : Type} [DecidableEq α] (l : List α) : List (α × Nat) :=
  (firstOccs l).map (fun x => (x, occCount x l))

/-- The order used by `Counter.most_common` / `value_counts`: entry `a`
precedes entry `b` when `a`'s count is at least `b`'s. -/
def countGE {α : Type} (a b : α × Nat) : Prop := b.2 ≤ a.2

instance {α : Type} : DecidableRel (@countGE α) := fun a b => Nat.decLe b.2 a.2

instance {α : Type} : IsTotal (α × Nat) countGE := ⟨fun a b => Nat.le_total b.2 a.2⟩

instance {α : Type} : IsTrans (α × Nat) countGE := ⟨fun _ _ _ hab hbc => le_trans hbc hab⟩

/-- Python's `sorted(items, key=count, reverse=True)`: a stable sort putting
higher counts first (ties keep their original relative order, as Python's
stable sort does; insertion sort realises the same stable order). -/
def sortByCountDesc {α : Type} (l : List (α × Nat)) : List (α × Nat) :=
  List.insertionSort countGE l

/-- `Counter(l).most_common()` (`app.py` lines 109-110): count the elements of
`l` and list (value, count) pairs by descending count, ties in
first-occurrence order. -/
def most_common {α : Type} [DecidableEq α] (l : List α) : List (α × Nat) :=
  sortByCountDesc (counterItems l)

/-- `pd.Series(l).value_counts()` (`app.py` lines 44, 55, 122, 149, 163, 174):
occurrence counts of the distinct values of `l`, ordered by descending count. -/
def value_counts {α : Type} [DecidableEq α] (l : List α) : List (α × Nat) :=
  most_common l

/-- `value_counts` optionally truncated to the `topN` highest-count entries
(`.head(n)` / `.nlargest(n)` on the descending-sorted counts). -/
def valueCounts {α : Type} [DecidableEq α] (l : List α) (topN : Option Nat) :
    List (α × Nat) :=
  match topN with
  | none => value_counts l
  | some n => (value_counts l).take n

/-- The aggregation step of `app.py` lines 43-44 and 108-110: flatten the
per-posting skill lists and count each skill. -/
def aggregateFrequencies (ms : List (List Str)) : List (Str × Nat) :=
  most_common ms.flatten

theorem mem_firstOccs {α : Type} [DecidableEq α] (a : α) :
    ∀ l : List α, a ∈ firstOccs l ↔ a ∈ l := by
  intro l
  induction l with
  | nil => simp [firstOccs]
  | cons b t ih =>
    by_cases hab : a = b
    · subst hab
      simp [firstOccs]
    · simp [firstOccs, List.mem_filter, ih, hab]

theorem nodup_firstOccs {α : Type} [DecidableEq α] :
    ∀ l : List α, (firstOccs l).Nodup := by
  intro l
  induction l with
  | nil => simp [firstOccs]
  | cons b t ih =>
    refine List.nodup_cons.mpr ⟨?_, ih.filter _⟩
    intro hmem
    have := (List.mem_filter.mp hmem).2
    simp at this

theorem firstOccs_perm_dedup {α : Type} [DecidableEq α] (l : List α) :
    (firstOccs l).Perm l.dedup := by
  refine (List.perm_ext_iff_of_nodup (nodup_firstOccs l) (List.nodup_dedup l)).mpr ?_
  intro a
  rw [mem_firstOccs, List.mem_dedup]

theorem sum_counts_firstOccs {α : Type} [DecidableEq α] (l : List α) :
    ((firstOccs l).map (fun x => l.count x)).sum = l.length := by
  have hperm := (firstOccs_perm_dedup l).map (fun x => l.count x)
  rw [hperm.sum_eq]
  exact List.sum_map_count_dedup_eq_length l

/-- The characters removed by Python's `str.strip()` on ASCII data. -/
def pySpace (c : Char) : Bool :=
  c == ' ' || c == '\t' || c == '\n' || c == '\r' || c == '\x0b' || c == '\x0c'

/-- Python `s.strip()`: drop whitespace from both ends. -/
def pyStrip (s : Str) : Str :=
  ((s.dropWhile pySpace).reverse.dropWhile pySpace).reverse

/-- Python `", ".join(l)`. -/
def joinComma (l : List Str) : Str :=
  (List.intersperse ", ".toList l).flatten

/-- The f-string of `app.py` lines 69-72 with the comma-joined matches
spliced in. -/
def about_me_text (matched : List Str) : Str :=
  "\nI am a data professional with strong experience in tools and technologies such as ".toList
    ++ joinComma matched
    ++ ".\nI’m passionate about applying data science to solve real-world problems, and I strive to bring business value using analytical insights.\n            ".toList

inductive SummaryError : Type where
  | EmptyInput : SummaryError
deriving DecidableEq

/-- The "Generate Summary" button handler (`app.py` lines 65-74): if the pasted
description is non-empty after stripping, extract skills with the
default-pipeline vocabulary and fill the template; otherwise report an error. -/
def generate_summary (text : Str) : Except SummaryError Str :=
  if pyStrip text = [] then Except.error SummaryError.EmptyInput
  else Except.ok (about_me_text (extract_skills text))

/-- The failures `pd.read_csv` can raise: `FileNotFoundError` for an absent
path, and `ReadFailure` standing for every other exception a present but
unreadable source raises (`PermissionError`, `IsADirectoryError`, parser and
decode errors).  `app.py` line 76 catches only `FileNotFoundError`. -/
inductive LoadError : Type where
  | FileNotFound : LoadError
  | ReadFailure : LoadError
deriving DecidableEq

/-- One row of the dataset after header normalisation.  `description` is
`none` for a missing cell (pandas `NaN`); `skills` and `seniority` are the
derived columns the app assigns, with arbitrary initial content. -/
structure Row where
  title : Str
  description : Option Str
  work_type : Str
  employment_type : Str
  skills : List Str := []
  seniority : String := ""
deriving DecidableEq

/-- A dataset source as `pd.read_csv` sees it: absent, present but
unreadable/unparseable, or a readable file with rows. -/
inductive Source : Type where
  | missing : Source
  | unreadable : Source
  | file : List Row → Source
deriving DecidableEq

/-- `pd.read_csv` (`app.py` lines 13-14, 85): an absent path raises
`FileNotFoundError`; a present but unreadable source raises some other
exception. -/
def read_csv (source : Source) : Except LoadError (List Row) :=
  match source with
  | Source.missing => Except.error LoadError.FileNotFound
  | Source.unreadable => Except.error LoadError.ReadFailure
  | Source.file t => Except.ok t

/-- `df['description'].fillna('')` (`app.py` lines 20, 91), per row. -/
def fillDesc (r : Row) : Row :=
  { r with description := some (r.description.getD []) }

/-- The per-row derived-column assignments of the uploaded-file pipeline:
`fillna`, then `df['skills']` and `df['seniority']`
(`app.py` lines 91, 107, 148). -/
def processRow (r : Row) : Row :=
  let r := fillDesc r
  { r with skills := extract_skills2 (r.description.getD []),
           seniority := get_seniority r.title }

/-- The five frequency tables the uploaded-file pipeline hands to the
presentation layer. -/
structure PipelineOutput where
  skill_counts : List (Str × Nat)
  top_titles : List (Str × Nat)
  seniority_counts : List (String × Nat)
  work_type_counts : List (Str × Nat)
  employment_counts : List (Str × Nat)
deriving DecidableEq

/-- The uploaded-file pipeline (`app.py` lines 85-181): compute the derived
columns per row, then the five frequency tables. -/
def runPipeline (rows : List Row) : PipelineOutput :=
  let p := rows.map processRow
  { skill_counts := most_common (p.map Row.skills).flatten,
    top_titles := valueCounts (p.map Row.title) (some 10),
    seniority_counts := value_counts (p.map Row.seniority),
    work_type_counts := value_counts (p.map Row.work_type),
    employment_counts := value_counts (p.map Row.employment_type) }

/-- What the script run renders, reduced to the data the claims are about. -/
structure AppOutput where
  defaultLoaded : Bool
  missingDefaultWarning : Bool
  uploadPromptShown : Bool
  uploadedOutput : Option PipelineOutput
deriving DecidableEq

/-- The top-level control flow of `app.py`: try the default file (lines
13-77); the `except` at line 76 catches only `FileNotFoundError`, warning and
skipping that section, after which the upload widget and the uploaded-file
pipeline (lines 79-184) still run.  Any other load exception propagates out of
the script: the run halts and nothing below the failure renders, which the
model expresses as `Except.error`. -/
def run_app (defaultFile : Source) (uploadedFile : Option (List Row)) :
    Except LoadError AppOutput :=
  match read_csv defaultFile with
  | Except.ok _ =>
      Except.ok { defaultLoaded := true, missingDefaultWarning := false,
                  uploadPromptShown := true, uploadedOutput := uploadedFile.map runPipeline }
  | Except.error LoadError.FileNotFound =>
      Except.ok { defaultLoaded := false, missingDefaultWarning := true,
                  uploadPromptShown := true, uploadedOutput := uploadedFile.map runPipeline }
  | Except.error e => Except.error e

theorem bool_ne_true {b : Bool} (h : b = false) : ¬(b = true) := by simp [h]

theorem forall_dropWhile_iff {α : Type} (p : α → Bool) (l : List α) :
    (∀ x ∈ l.dropWhile p, p x = true) ↔ ∀ x ∈ l, p x = true := by
  constructor
  · intro h x hx
    rw [← List.takeWhile_append_dropWhile p l] at hx
    rcases List.mem_append.mp hx with h1 | h2
    · exact List.mem_takeWhile_imp h1
    · exact h x h2
  · intro h x hx
    refine h x ?_
    rw [← List.takeWhile_append_dropWhile p l]
    exact List.mem_append_right _ hx

theorem pyStrip_eq_nil_iff (s : Str) : pyStrip s = [] ↔ ∀ c ∈ s, pySpace c = true := by
  rw [pyStrip, List.reverse_eq_nil_iff, List.dropWhile_eq_nil_iff]
  simp only [List.mem_reverse]
  exact forall_dropWhile_iff pySpace s

theorem most_common_sorted {α : Type} [DecidableEq α] (l : List α) :
    (most_common l).Sorted countGE :=
  List.sorted_insertionSort countGE (counterItems l)

theorem most_common_perm {α : Type} [DecidableEq α] (l : List α) :
    (most_common l).Perm (counterItems l) :=
  List.perm_insertionSort countGE (counterItems l)

theorem mem_most_common {α : Type} [DecidableEq α] (l : List α) (p : α × Nat) :
    p ∈ most_common l ↔ p.1 ∈ l ∧ p.2 = occCount p.1 l := by
  rw [(most_common_perm l).mem_iff]
  simp only [counterItems, List.mem_map]
  constructor
  · rintro ⟨x, hx, rfl⟩
    exact ⟨(mem_firstOccs x l).mp hx, rfl⟩
  · rintro ⟨h1, h2⟩
    exact ⟨p.1, (mem_firstOccs p.1 l).mpr h1, Prod.ext rfl h2.symm⟩

theorem counterItems_map_fst {α : Type} [DecidableEq α] (l : List α) :
    (counterItems l).map Prod.fst = firstOccs l := by
  simp [counterItems, List.map_map, Function.comp_def]

theorem most_common_fst_nodup {α : Type} [DecidableEq α] (l : List α) :
    ((most_common l).map Prod.fst).Nodup := by
  rw [((most_common_perm l).map Prod.fst).nodup_iff, counterItems_map_fst]
  exact nodup_firstOccs l

theorem mem_most_common_fst {α : Type} [DecidableEq α] (l : List α) (a : α) :
    a ∈ (most_common l).map Prod.fst ↔ a ∈ l := by
  rw [((most_common_perm l).map Prod.fst).mem_iff, counterItems_map_fst]
  exact mem_firstOccs a l

theorem sum_most_common_counts {α : Type} [DecidableEq α] (l : List α) :
    ((most_common l).map Prod.snd).sum = l.length := by
  rw [((most_common_perm l).map Prod.snd).sum_eq]
  have h : (counterItems l).map Prod.snd = (firstOccs l).map (fun x => occCount x l) := by
    simp [counterItems, List.map_map, Function.comp_def]
  rw [h]
  exact sum_counts_firstOccs l

theorem most_common_head_max {α : Type} [DecidableEq α] (l : List α) (p : α × Nat)
    (rest : List (α × Nat)) (h : most_common l = p :: rest) :
    ∀ x ∈ l, occCount x l ≤ p.2 := by
  intro x hx
  have hmem : (x, occCount x l) ∈ most_common l :=
    (mem_most_common l (x, occCount x l)).mpr ⟨hx, rfl⟩
  rw [h] at hmem
  rcases List.mem_cons.mp hmem with heq | hmem2
  · exact le_of_eq (congrArg Prod.snd heq)
  · have hs := most_common_sorted l
    rw [h] at hs
    exact List.rel_of_sorted_cons hs _ hmem2

theorem processRow_idem (r : Row) : processRow (processRow r) = processRow r := by
  cases r with
  | mk title description work_type employment_type sk sen => cases description <;> rfl

/-- C1: for every text `T` and vocabulary `V`, `extract_skills` returns only
elements of `V`, and each returned element matches `T` lowercased: in the
default pipeline (lines 35-37) the lowercased form of the returned entry is a
substring of the lowercased text, and in the uploaded-file pipeline
(lines 102-104) the entry itself is. -/
theorem C1_extract_skills_sound :
    (∀ (V : List Str) (T s : Str), s ∈ extract_skills_with V T →
        s ∈ V ∧ ∃ p q, lowerStr T = p ++ (lowerStr s ++ q))
  ∧ (∀ (V : List Str) (T s : Str), s ∈ extract_skills2_with V T →
        s ∈ V ∧ ∃ p q, lowerStr T = p ++ (s ++ q)) := by
  constructor
  · intro V T s hs
    simp only [extract_skills_with] at hs
    rcases List.mem_filter.mp hs with ⟨hV, hsub⟩
    exact ⟨hV, (hasSub_iff _ _).mp hsub⟩
  · intro V T s hs
    simp only [extract_skills2_with] at hs
    rcases List.mem_filter.mp hs with ⟨hV, hsub⟩
    exact ⟨hV, (hasSub_iff _ _).mp hsub⟩

/-- Witness for C1 at the vocabulary of the default pipeline and the spec's
example text. -/
theorem C1_extract_skills_sound_witness :
    "Python".toList ∈ skills ∧
      ∃ p q, lowerStr "I know Python and SQL".toList = p ++ (lowerStr "Python".toList ++ q) :=
  C1_extract_skills_sound.1 skills "I know Python and SQL".toList "Python".toList (by decide)

/-- C2: `get_seniority` lowercases the title and tests the substrings
`intern`, `junior`, `senior`, `lead`-or-`principal` in that priority order,
returning the first matching label and `"Mid"` when none matches; in
particular `"Senior Intern"` classifies as `"Intern"`. -/
theorem C2_get_seniority_priority :
    (∀ t : Str, hasSub "intern".toList (lowerStr t) = true → get_seniority t = "Intern")
  ∧ (∀ t : Str, hasSub "intern".toList (lowerStr t) = false →
      hasSub "junior".toList (lowerStr t) = true → get_seniority t = "Junior")
  ∧ (∀ t : Str, hasSub "intern".toList (lowerStr t) = false →
      hasSub "junior".toList (lowerStr t) = false →
      hasSub "senior".toList (lowerStr t) = true → get_seniority t = "Senior")
  ∧ (∀ t : Str, hasSub "intern".toList (lowerStr t) = false →
      hasSub "junior".toList (lowerStr t) = false →
      hasSub "senior".toList (lowerStr t) = false →
      (hasSub "lead".toList (lowerStr t) = true ∨
        hasSub "principal".toList (lowerStr t) = true) →
      get_seniority t = "Lead")
  ∧ (∀ t : Str, hasSub "intern".toList (lowerStr t) = false →
      hasSub "junior".toList (lowerStr t) = false →
      hasSub "senior".toList (lowerStr t) = false →
      hasSub "lead".toList (lowerStr t) = false →
      hasSub "principal".toList (lowerStr t) = false →
      get_seniority t = "Mid")
  ∧ get_seniority "Senior Intern".toList = "Intern"
  ∧ get_seniority "Senior Data Analyst".toList = "Senior"
  ∧ get_seniority "Lead/Principal Engineer".toList = "Lead"
  ∧ get_seniority "Data Analyst".toList = "Mid" := by
  refine ⟨?_, ?_, ?_, ?_, ?_, by decide, by decide, by decide, by decide⟩
  · intro t h1
    simp only [get_seniority]
    rw [if_pos h1]
  · intro t h1 h2
    simp only [get_seniority]
    rw [if_neg (by exact bool_ne_true h1), if_pos h2]
  · intro t h1 h2 h3
    simp only [get_seniority]
    rw [if_neg (by exact bool_ne_true h1), if_neg (by exact bool_ne_true h2), if_pos h3]
  · intro t h1 h2 h3 h4
    simp only [get_seniority]
    rw [if_neg (by exact bool_ne_true h1), if_neg (by exact bool_ne_true h2),
      if_neg (by exact bool_ne_true h3), if_pos (by rw [Bool.or_eq_true]; exact h4)]
  · intro t h1 h2 h3 h4 h5
    simp only [get_seniority]
    rw [if_neg (by exact bool_ne_true h1), if_neg (by exact bool_ne_true h2),
      if_neg (by exact bool_ne_true h3),
      if_neg (by rw [Bool.or_eq_true]
                 rintro (hc | hc)
                 exacts [bool_ne_true h4 hc, bool_ne_true h5 hc])]

/-- Witness for C2 on a concrete ambiguous title. -/
theorem C2_get_seniority_priority_witness :
    get_seniority "Machine Learning Intern".toList = "Intern" :=
  C2_get_seniority_priority.1 "Machine Learning Intern".toList (by decide)

/-- C3: the match list is a sublist of the vocabulary (hence listed in
vocabulary order), and is duplicate-free: for any duplicate-free vocabulary in
general, and unconditionally for the two vocabularies of the app, however
often the text repeats a keyword. -/
theorem C3_extract_skills_nodup_order :
    (∀ (V : List Str) (T : Str),
        (extract_skills_with V T).Sublist V
        ∧ (V.Nodup → (extract_skills_with V T).Nodup)
        ∧ (extract_skills2_with V T).Sublist V
        ∧ (V.Nodup → (extract_skills2_with V T).Nodup))
  ∧ (∀ T : Str, (extract_skills T).Nodup ∧ (extract_skills2 T).Nodup) := by
  have hsub : ∀ (V : List Str) (T : Str), (extract_skills_with V T).Sublist V := by
    intro V T
    simp only [extract_skills_with]
    exact List.filter_sublist V
  have hsub2 : ∀ (V : List Str) (T : Str), (extract_skills2_with V T).Sublist V := by
    intro V T
    simp only [extract_skills2_with]
    exact List.filter_sublist V
  refine ⟨fun V T => ⟨hsub V T, fun hV => List.Nodup.sublist (hsub V T) hV,
    hsub2 V T, fun hV => List.Nodup.sublist (hsub2 V T) hV⟩, fun T => ⟨?_, ?_⟩⟩
  · exact List.Nodup.sublist (hsub skills T) (by decide)
  · exact List.Nodup.sublist (hsub2 skills2 T) (by decide)

/-- Witness for C3: a text repeating `python` still yields a duplicate-free
match list over the default vocabulary. -/
theorem C3_extract_skills_nodup_order_witness :
    (extract_skills_with skills "Python python SQL".toList).Nodup :=
  (C3_extract_skills_nodup_order.1 skills "Python python SQL".toList).2.1 (by decide)

/-- C4: the summary button handler reports the empty-input error exactly when
the pasted text is empty or whitespace-only; both `""` and `"  "` are
rejected, and the handler is total (no crash). -/
theorem C4_generate_summary_empty_input :
    (∀ T : Str, generate_summary T = Except.error SummaryError.EmptyInput ↔
        ∀ c ∈ T, pySpace c = true)
  ∧ generate_summary "".toList = Except.error SummaryError.EmptyInput
  ∧ generate_summary "  ".toList = Except.error SummaryError.EmptyInput := by
  refine ⟨?_, by rfl, by rfl⟩
  intro T
  constructor
  · intro heq
    by_cases h : pyStrip T = []
    · exact (pyStrip_eq_nil_iff T).mp h
    · rw [generate_summary, if_neg h] at heq
      exact Except.noConfusion heq
  · intro hall
    rw [generate_summary, if_pos ((pyStrip_eq_nil_iff T).mpr hall)]

/-- Witness for C4 on a concrete whitespace-only input. -/
theorem C4_generate_summary_empty_input_witness :
    generate_summary " \t ".toList = Except.error SummaryError.EmptyInput :=
  (C4_generate_summary_empty_input.1 " \t ".toList).mpr (by decide)

/-- C5: `aggregateFrequencies` flattens the per-posting match lists and counts
per distinct skill, ordered by descending count; on the spec's example the
counts are python 2 and sql 2 (the implementation's stable tie order puts
python, the first-flattened skill, first), and on any input the output pairs
each flattened skill exactly once with its occurrence count, sorted by
descending count. -/
theorem C5_aggregate_frequencies :
    aggregateFrequencies [["python".toList], ["python".toList, "sql".toList], ["sql".toList]]
      = [("python".toList, 2), ("sql".toList, 2)]
  ∧ (∀ ms : List (List Str),
      (aggregateFrequencies ms).Sorted countGE
      ∧ (∀ p ∈ aggregateFrequencies ms, p.1 ∈ ms.flatten ∧ p.2 = occCount p.1 ms.flatten)
      ∧ ((aggregateFrequencies ms).map Prod.fst).Nodup
      ∧ (∀ s : Str, s ∈ (aggregateFrequencies ms).map Prod.fst ↔ s ∈ ms.flatten)) := by
  refine ⟨by decide, fun ms => ⟨most_common_sorted _, ?_, most_common_fst_nodup _,
    fun s => mem_most_common_fst _ s⟩⟩
  intro p hp
  exact (mem_most_common _ p).mp hp

/-- Witness for C5 at the spec's example input. -/
theorem C5_aggregate_frequencies_witness :
    "python".toList ∈ ([["python".toList], ["python".toList, "sql".toList],
        ["sql".toList]] : List (List Str)).flatten
    ∧ (2 : Nat) = occCount "python".toList ([["python".toList],
        ["python".toList, "sql".toList], ["sql".toList]] : List (List Str)).flatten :=
  (C5_aggregate_frequencies.2
      [["python".toList], ["python".toList, "sql".toList], ["sql".toList]]).2.1
    ("python".toList, 2) (by decide)

/-- C6: `value_counts` counts occurrences per distinct value; with `topN` it
keeps at most `topN` entries, still sorted by descending count, each pairing a
value with its count; the counts over all distinct values sum to the input
length; the head entry has the globally maximal count; and on the spec's
example with `topN = 2` the result is `[("A", 3), ("B", 1)]` with total 5. -/
theorem C6_value_counts :
    valueCounts ["A", "B", "A", "A", "C"] (some 2) = [("A", 3), ("B", 1)]
  ∧ ((value_counts ["A", "B", "A", "A", "C"]).map Prod.snd).sum = 5
  ∧ (∀ (l : List String) (n : Nat),
      (valueCounts l (some n)).length ≤ n
      ∧ (valueCounts l (some n)).Sorted countGE
      ∧ (∀ p ∈ valueCounts l (some n), p.1 ∈ l ∧ p.2 = occCount p.1 l))
  ∧ (∀ l : List String, ((value_counts l).map Prod.snd).sum = l.length)
  ∧ (∀ (l : List String) (p : String × Nat) (rest : List (String × Nat)),
      value_counts l = p :: rest → ∀ x ∈ l, occCount x l ≤ p.2) := by
  refine ⟨by decide, by decide, fun l n => ⟨List.length_take_le n _, ?_, ?_⟩,
    fun l => sum_most_common_counts l, fun l p rest h => most_common_head_max l p rest h⟩
  · exact List.Pairwise.sublist (List.take_sublist n _) (most_common_sorted l)
  · intro p hp
    exact (mem_most_common l p).mp ((List.take_sublist n _).subset hp)

/-- Witness for C6: the head count 3 bounds the count of any value of the
example list. -/
theorem C6_value_counts_witness :
    occCount "B" (["A", "B", "A", "A", "C"] : List String) ≤ 3 :=
  C6_value_counts.2.2.2.2 ["A", "B", "A", "A", "C"] ("A", 3) [("B", 1), ("C", 1)]
    (by decide) "B" (by decide)

/-- C7 counterexample: at the concrete input of a present but unreadable
source the loader does not signal the caught `FileNotFound`; the raised
failure is uncaught and the app run produces no output at all — the upload
prompt never renders and the rest of the program does not run, refuting the
claim's "or unreadable" branch. -/
theorem C7_dataset_not_found_counterexample :
    read_csv Source.unreadable ≠ Except.error LoadError.FileNotFound
  ∧ run_app Source.unreadable none = Except.error LoadError.ReadFailure := by
  refine ⟨fun h => ?_, rfl⟩
  simp [read_csv] at h

/-- C7 (amended): only an *absent* dataset source is handled non-fatally: the
loader signals `FileNotFound`, the only exception the app catches, and the
app then warns, still shows the upload prompt, and produces the same
uploaded-file pipeline output as when the default file loads.  A present but
unreadable source raises a different error that is not caught: the script
halts and nothing further runs. -/
theorem C7_dataset_not_found :
    read_csv Source.missing = Except.error LoadError.FileNotFound
  ∧ read_csv Source.unreadable = Except.error LoadError.ReadFailure
  ∧ (∀ u : Option (List Row),
      run_app Source.missing u = Except.ok
        { defaultLoaded := false, missingDefaultWarning := true,
          uploadPromptShown := true, uploadedOutput := u.map runPipeline }
      ∧ (∀ d : List Row,
          run_app (Source.file d) u = Except.ok
            { defaultLoaded := true, missingDefaultWarning := false,
              uploadPromptShown := true, uploadedOutput := u.map runPipeline })
      ∧ run_app Source.unreadable u = Except.error LoadError.ReadFailure) :=
  ⟨rfl, rfl, fun _ => ⟨rfl, fun _ => rfl, rfl⟩⟩

/-- C8: the pipeline is deterministic and idempotent: re-running it on an
already-processed table yields the same five frequency tables, running it
twice on the same table yields identical results, and the derived columns of
row `i` depend only on row `i` (no cross-row state). -/
theorem C8_pipeline_idempotent :
    ∀ rows : List Row,
      runPipeline (rows.map processRow) = runPipeline rows
      ∧ runPipeline rows = runPipeline rows
      ∧ ∀ (i : Nat) (h : i < rows.length),
          (rows.map processRow).get ⟨i, by simpa using h⟩ = processRow (rows.get ⟨i, h⟩) := by
  intro rows
  refine ⟨?_, rfl, ?_⟩
  · have hmap : (rows.map processRow).map processRow = rows.map processRow := by
      rw [List.map_map]
      exact List.map_congr_left (fun a _ => processRow_idem a)
    simp only [runPipeline]
    rw [hmap]
  · intro i h
    simp

/-- A concrete posting used to witness C8. -/
def sampleRow : Row :=
  { title := "Senior Data Analyst".toList, description := some "python and sql".toList,
    work_type := "Remote".toList, employment_type := "Full-time".toList }

/-- Witness for C8 on a one-row table. -/
theorem C8_pipeline_idempotent_witness :
    ([sampleRow].map processRow).get ⟨0, by simp⟩ = processRow ([sampleRow].get ⟨0, by simp⟩) :=
  (C8_pipeline_idempotent [sampleRow]).2.2 0 (by simp)

/-- C9: the default vocabulary contains the single-letter entry `R`, and since
matching is bare substring containment on the lowercased text, `extract_skills`
returns `R` exactly when the lowercased text contains the letter `r` anywhere,
e.g. inside `Engineer` or `work`. -/
theorem C9_letter_r :
    "R".toList ∈ skills
  ∧ (∀ T : Str, 'r' ∈ lowerStr T → "R".toList ∈ extract_skills T)
  ∧ (∀ T : Str, "R".toList ∈ extract_skills T → 'r' ∈ lowerStr T)
  ∧ "R".toList ∈ extract_skills "Software Engineer".toList
  ∧ "R".toList ∈ extract_skills "I work with data".toList := by
  have hlow : lowerStr "R".toList = ['r'] := by decide
  refine ⟨by decide, ?_, ?_, by decide, by decide⟩
  · intro T hr
    simp only [extract_skills, extract_skills_with]
    rw [List.mem_filter]
    refine ⟨by decide, ?_⟩
    rw [hlow, hasSub_singleton]
    exact hr
  · intro T hmem
    simp only [extract_skills, extract_skills_with] at hmem
    have hsub := (List.mem_filter.mp hmem).2
    rw [hlow, hasSub_singleton] at hsub
    exact hsub

/-- Witness for C9: `engineer` mentions no R language yet matches `R`. -/
theorem C9_letter_r_witness : "R".toList ∈ extract_skills "engineer".toList :=
  C9_letter_r.2.1 "engineer".toList (by decide)

/-- C10: on any non-whitespace-only text with zero vocabulary matches the
summary generator still succeeds, producing the template with the empty
comma-join of no skills, not an error. -/
theorem C10_no_match_summary :
    joinComma [] = []
  ∧ ∀ T : Str, (∃ c ∈ T, pySpace c = false) → extract_skills T = [] →
      generate_summary T = Except.ok (about_me_text []) := by
  refine ⟨rfl, ?_⟩
  intro T hex hnone
  have hne : pyStrip T ≠ [] := by
    intro h
    rcases hex with ⟨c, hc, hcf⟩
    have htrue := (pyStrip_eq_nil_iff T).mp h c hc
    rw [htrue] at hcf
    exact Bool.noConfusion hcf
  rw [generate_summary, if_neg hne, hnone]

/-- Witness for C10: `hello` matches no vocabulary entry yet gets a summary. -/
theorem C10_no_match_summary_witness :
    generate_summary "hello".toList = Except.ok (about_me_text []) :=
  C10_no_match_summary.2 "hello".toList (by decide) (by decide)
